import Mathlib

/-!
Verification of the LADCP cast-processing script (`LADCP/LADCP_reg.py`).

Shallow embedding conventions:
* Python floats are modelled as rationals (`ℚ`); a possibly-NaN float is
  `Option ℚ`, with `none` playing the role of the NaN missing-value marker.
  Every number appearing in the script and in the examples is exactly
  representable, so no rounding behaviour is lost.
* Python exceptions are the inductive `PyErr`; fallible code returns
  `Except PyErr _`.
* The loader `get_adcp_data` performs file I/O (`scipy.io.loadmat`), so the
  collector `get_valid_casts` is parametrised by an abstract load function
  `load : Nat → Except PyErr Cast`; a successful parse yields a `Cast`
  record, a failure yields the exception the loader raised.
* The renderer's matplotlib calls are modelled as emitted vector records
  (`RVec`); the bathymetry background, labels and legend carry no data and
  are out of the model.

Batteries marks the `Rat` arithmetic operations `@[irreducible]`; they are
unsealed here so that concrete runs of the embedded program reduce. -/

unseal Rat.add Rat.mul Rat.inv Rat.sub

set_option maxRecDepth 100000

/-- Python exception values relevant to the script.  Constructors carry no
messages; each one stands for a distinct exception class / raise site. -/
inductive PyErr where
  /-- `FileNotFoundError` from `sio.loadmat` on a missing file. -/
  | fileNotFound
  /-- `KeyError` from a missing field in the loaded record. -/
  | keyError
  /-- `IndexError`, e.g. `.index[-1]` on an empty index. -/
  | indexError
  /-- `UnboundLocalError`: a local variable referenced before assignment. -/
  | unboundLocalError
  /-- `ValueError` raised by `np.arange` when its stop bound is NaN
  (`cannot convert float NaN to integer`). -/
  | valueErrorArangeNaN
  /-- `ValueError` raised by `min()` / `max()` on an empty sequence. -/
  | valueErrorEmptySeq
  /-- Any exception class other than the above (e.g. a scipy parse error). -/
  | otherExc
  deriving DecidableEq

/-- One loaded cast record `dr`, as extracted by `get_adcp_data`:
pressure series `p`, velocity components `u`, `v` (aligned index-wise with
`p`, entries possibly NaN), and scalar position `lat`, `lon`.
A record missing one of these fields is a `KeyError` load failure, so a
successfully loaded `Cast` has all fields. -/
structure Cast where
  p : List ℚ
  u : List (Option ℚ)
  v : List (Option ℚ)
  lat : ℚ
  lon : ℚ
  deriving DecidableEq

/-- `np.arange(start, stop, step)` on floats (step positive in all uses):
the list `start + step * k` for `k < ⌈(stop - start) / step⌉`
(empty when the count is nonpositive). -/
def np_arange (start stop step : ℚ) : List ℚ :=
  (List.range (Int.toNat ⌈(stop - start) / step⌉)).map (fun k : ℕ => start + step * (k : ℚ))

/-- `full_depth_range = np.arange(2, 2576, 2)`: the shared depth grid. -/
def full_depth_range : List ℚ :=
  np_arange 2 2576 2

/-- Inner scan of `np.interp` over the zipped `(xp, fp)` samples, for a
query `x` already known to satisfy `xp.head ≤ x ≤ xp.getLast` (numpy
assumes `xp` sorted increasingly).  An exact hit on a sample point returns
that sample's value (NaN included); strictly between two samples the value
is the standard linear interpolation, which is NaN as soon as either
endpoint value is NaN (numpy's slope arithmetic propagates the NaN). -/
def interpGo (x : ℚ) : List (ℚ × Option ℚ) → Option ℚ
  | [] => none
  | (x0, f0) :: [] => if x = x0 then f0 else none
  | (x0, f0) :: (x1, f1) :: rest =>
    if x = x0 then f0
    else if x < x1 then
      match f0, f1 with
      | some a, some b => some (a + (b - a) * ((x - x0) / (x1 - x0)))
      | _, _ => none
    else interpGo x ((x1, f1) :: rest)

/-- `np.interp(x, xp, fp, left=np.nan, right=np.nan)` at one query point:
queries below the first or above the last sample abscissa give NaN. -/
def np_interp (x : ℚ) (xp : List ℚ) (fp : List (Option ℚ)) : Option ℚ :=
  match xp with
  | [] => none
  | x0 :: _ =>
    if x < x0 then none
    else if xp.getLastD x0 < x then none
    else interpGo x (xp.zip fp)

/-- `np.max(p[~np.isnan(u) & ~np.isnan(v)])`: the largest pressure at which
both `u` and `v` are non-missing.  On an empty selection pandas'
`Series.max` returns NaN, modelled as `none`. -/
def max_valid_p (c : Cast) : Option ℚ :=
  ((c.p.zip (c.u.zip c.v)).filterMap
    (fun s => if s.2.1.isSome ∧ s.2.2.isSome then some s.1 else none)).max?

/-- `max_depth = np.min([np.max(p[...]), full_depth_range[-1]])`.
`np.min` propagates NaN, so a missing maximum stays missing. -/
def max_depth (c : Cast) : Option ℚ :=
  (max_valid_p c).map (fun m => min m (full_depth_range.getLastD 0))

/-- The assignment `u_extended[: len(interpolated_u)] = interpolated_u` into
`np.full_like(full_depth_range, np.nan)`: the interpolated prefix followed
by NaN up to the grid length.  (In every reachable call the prefix is at
most the grid length, since `max_depth ≤ full_depth_range[-1]`.) -/
def extendFull (xs : List (Option ℚ)) : List (Option ℚ) :=
  xs ++ List.replicate (full_depth_range.length - xs.length) none

/-- One interpolated cast: the columns of the per-cast output DataFrame. -/
structure InterpolatedCast where
  p_int : List ℚ
  u_int : List (Option ℚ)
  v_int : List (Option ℚ)
  deriving DecidableEq

/-- The body of the interpolation loop of `process_casts` for one cast:
compute `max_depth` (NaN when no jointly-valid sample exists, in which case
`np.arange(2, max_depth + 1, 2)` raises `ValueError`), interpolate `u` and
`v` onto `np.arange(2, max_depth + 1, 2)`, and extend both to the full
grid length with NaN. -/
def processCast (c : Cast) : Except PyErr InterpolatedCast :=
  match max_depth c with
  | none => .error .valueErrorArangeNaN
  | some md =>
    let interpolated_p := np_arange 2 (md + 1) 2
    .ok { p_int := full_depth_range
          u_int := extendFull (interpolated_p.map (fun d => np_interp d c.p c.u))
          v_int := extendFull (interpolated_p.map (fun d => np_interp d c.p c.v)) }

/-- `process_casts`: interpolate every retained cast in mapping order; the
first exception raised inside the loop aborts the whole call. -/
def process_casts : List (Nat × Cast) → Except PyErr (List (Nat × InterpolatedCast))
  | [] => .ok []
  | (cid, c) :: rest =>
    match processCast c with
    | .error e => .error e
    | .ok ic =>
      match process_casts rest with
      | .error e => .error e
      | .ok m => .ok ((cid, ic) :: m)

/-- The scan loop of `get_valid_casts` over a list of candidate
identifiers: load each cast, keep it when `dr['lon'] != 0 and cast != 1`,
swallow `FileNotFoundError` and `KeyError`, and let any other exception
propagate to the caller. -/
def gvcGo (load : Nat → Except PyErr Cast) : List Nat → Except PyErr (List (Nat × Cast))
  | [] => .ok []
  | cast :: rest =>
    match load cast with
    | .ok dr =>
      if dr.lon ≠ 0 ∧ cast ≠ 1 then
        match gvcGo load rest with
        | .ok m => .ok ((cast, dr) :: m)
        | .error e => .error e
      else gvcGo load rest
    | .error e =>
      if e = .fileNotFound ∨ e = .keyError then gvcGo load rest else .error e

/-- `get_valid_casts(last_cast)`: scan identifiers `1 .. last_cast`
(Python's `range(1, last_cast + 1)`) with the loop above. -/
def get_valid_casts (load : Nat → Except PyErr Cast) (last_cast : Nat) :
    Except PyErr (List (Nat × Cast)) :=
  gvcGo load (List.range' 1 last_cast)

/-- A load outcome that lets the scan continue: a success, or one of the
two exception classes named in the `except` clause. -/
def loadOkOrSwallowed : Except PyErr Cast → Bool
  | .ok _ => true
  | .error .fileNotFound => true
  | .error .keyError => true
  | .error _ => false

/-- One `plt.quiver` call: the drawn vector's position, components and
color.  The `u` component of a highlight vector is always present (it is
checked), but the `v` component is read without a check and may be NaN. -/
structure RVec where
  lon : ℚ
  lat : ℚ
  u : Option ℚ
  v : Option ℚ
  color : String
  deriving DecidableEq

/-- The mutable locals of `plot_adcp_data` threaded through its loops:
the emitted quivers, the accumulated `lons` / `lats` lists, and the local
variables `lon` / `lat` (`none` = not yet assigned, so that reading them
is an `UnboundLocalError`). -/
structure PlotState where
  vecs : List RVec
  lons : List ℚ
  lats : List ℚ
  lonVar : Option ℚ
  latVar : Option ℚ
  deriving DecidableEq

/-- `len(Cdata_interpolated[cast])`: the DataFrame's row count (all three
columns share it; `p_int` is the first column). -/
def icLen (ic : InterpolatedCast) : Nat :=
  ic.p_int.length

/-- `valid_casts[cast]`: dictionary lookup, `KeyError` when absent. -/
def alistGet (m : List (Nat × Cast)) (k : Nat) : Except PyErr Cast :=
  match m.find? (fun kv => kv.1 = k) with
  | some kv => .ok kv.2
  | none => .error .keyError

/-- The index of the last `some` entry of a column, or `none` when every
entry is missing.  This is `series[~np.isnan(u_int)].index[-1]` over the
DataFrame's positional RangeIndex. -/
def lastSomeIdx : List (Option ℚ) → Option Nat
  | [] => none
  | x :: xs =>
    match lastSomeIdx xs with
    | some i => some (i + 1)
    | none => if x.isSome then some 0 else none

/-- `Cdata_interpolated[cast]['p_int'][~np.isnan(u_int)].index[-1]` without
the trailing `[-1]`: the deepest row index whose `u_int` is present. -/
def lastValidIndex (ic : InterpolatedCast) : Option Nat :=
  lastSomeIdx ic.u_int

/-- The inner `for ind, color in zip(indices, colors)` loop for one cast:
skip the pair when the index is out of bounds or `u_int[ind]` is NaN
(short-circuit `or`, `v` is never consulted); otherwise read the cast's
own position from `valid_casts` (`KeyError` propagates), emit the quiver,
append the position to `lons` / `lats` and assign the `lon` / `lat`
locals. -/
def innerLoop (valid : List (Nat × Cast)) (cid : Nat) (ic : InterpolatedCast)
    (st : PlotState) : List (Nat × String) → Except PyErr PlotState
  | [] => .ok st
  | (ind, color) :: rest =>
    if icLen ic ≤ ind ∨ ic.u_int.getD ind none = none then
      innerLoop valid cid ic st rest
    else
      match alistGet valid cid with
      | .error e => .error e
      | .ok c =>
        innerLoop valid cid ic
          { vecs := st.vecs ++ [⟨c.lon, c.lat, ic.u_int.getD ind none, ic.v_int.getD ind none, color⟩]
            lons := st.lons ++ [c.lon]
            lats := st.lats ++ [c.lat]
            lonVar := some c.lon
            latVar := some c.lat } rest

/-- The bottom-most-measurement step for one cast: find the deepest row
with a present `u_int` (`IndexError` on an all-missing column), then emit
a black quiver at whatever the `lon` / `lat` locals currently hold
(`UnboundLocalError` when they were never assigned). -/
def bottomStep (st : PlotState) (ic : InterpolatedCast) : Except PyErr PlotState :=
  match lastValidIndex ic with
  | none => .error .indexError
  | some i =>
    match st.lonVar, st.latVar with
    | some lo, some la =>
      .ok { vecs := st.vecs ++ [⟨lo, la, ic.u_int.getD i none, ic.v_int.getD i none, "black"⟩]
            lons := st.lons ++ [lo]
            lats := st.lats ++ [la]
            lonVar := st.lonVar
            latVar := st.latVar }
    | _, _ => .error .unboundLocalError

/-- The outer `for cast in Cdata_interpolated.keys()` loop: highlight
vectors then the bottom-most vector, for each cast in mapping order. -/
def castLoop (valid : List (Nat × Cast)) (pairs : List (Nat × String))
    (st : PlotState) : List (Nat × InterpolatedCast) → Except PyErr PlotState
  | [] => .ok st
  | (cid, ic) :: rest =>
    match innerLoop valid cid ic st pairs with
    | .error e => .error e
    | .ok st1 =>
      match bottomStep st1 ic with
      | .error e => .error e
      | .ok st2 => castLoop valid pairs st2 rest

/-- `plot_adcp_data`: run both loops from an empty state, then compute the
axis limits `min(lons) - 0.2, max(lons) + 0.2` (and the same for `lats`);
`min()` of the empty `lons` list raises `ValueError`.  The result is the
emitted quivers plus `(xmin, xmax, ymin, ymax)`. -/
def plot_adcp_data (interp : List (Nat × InterpolatedCast)) (valid : List (Nat × Cast))
    (indices : List Nat) (colors : List String) :
    Except PyErr (List RVec × ℚ × ℚ × ℚ × ℚ) :=
  match castLoop valid (indices.zip colors) ⟨[], [], [], none, none⟩ interp with
  | .error e => .error e
  | .ok st =>
    match st.lons.min?, st.lons.max?, st.lats.min?, st.lats.max? with
    | some lmin, some lmax, some tmin, some tmax =>
      .ok (st.vecs, lmin - 1/5, lmax + 1/5, tmin - 1/5, tmax + 1/5)
    | _, _, _, _ => .error .valueErrorEmptySeq

/-! Concrete inputs used by counterexamples and witnesses. -/

/-- The cast of the spec's interpolation example: pressures `[2,4,6,8]`,
`u = [1.0, NaN, 3.0, 4.0]`, `v` all valid. -/
def cast3 : Cast := ⟨[2, 4, 6, 8], [some 1, none, some 3, some 4],
  [some 5, some 5, some 5, some 5], 0, 0⟩

/-- A cast whose deepest jointly-valid pressure is the non-grid value 7.5:
`u` valid everywhere, `v` missing at depth 10. -/
def cast2x : Cast := ⟨[2, 15/2, 10], [some 1, some 1, some 1],
  [some 1, some 1, none], 0, 0⟩

/-- A small well-behaved cast: jointly valid at pressures 2 and 4. -/
def castW : Cast := ⟨[2, 4], [some 1, some 2], [some 3, some 4], 0, 0⟩

/-- A retained cast with no jointly-valid `(u, v)` sample: `u` is missing
everywhere. -/
def noJointCast : Cast := ⟨[2, 4], [none, none], [some 1, some 1], 5, 7⟩

/-- The cast returned by `loadW` for identifier 3. -/
def castW3 : Cast := ⟨[2], [some 1], [some 1], 5, 7⟩

/-- A loader: cast 1 has non-zero longitude, cast 2 has longitude 0,
cast 3 is fine, everything else is a missing file. -/
def loadW : Nat → Except PyErr Cast := fun n =>
  if n = 1 then .ok ⟨[2], [some 1], [some 1], 5, -7⟩
  else if n = 2 then .ok ⟨[2], [some 1], [some 1], 5, 0⟩
  else if n = 3 then .ok castW3
  else .error .fileNotFound

/-- A loader whose identifier-2 load fails with an exception class other
than `FileNotFoundError` / `KeyError` (e.g. a scipy parse error). -/
def loadCex : Nat → Except PyErr Cast := fun n =>
  if n = 2 then .error .otherExc else .ok castW3

/-- A loader whose identifier-2 load fails with `FileNotFoundError`. -/
def loadW5 : Nat → Except PyErr Cast := fun n =>
  if n = 2 then .error .fileNotFound else .ok castW3

/-- An interpolated cast whose `v_int` is missing at row 0 while `u_int`
is present there. -/
def icx : InterpolatedCast := ⟨[2, 4], [some 1, some 1], [none, some 2]⟩

/-- A valid-cast record at longitude 3, latitude 4. -/
def cx : Cast := ⟨[2], [some 1], [some 1], 4, 3⟩

/-- An interpolated cast with all values present. -/
def icA : InterpolatedCast := ⟨[2, 4], [some 1, some 1], [some 1, some 1]⟩

/-- A valid-cast record at longitude 1, latitude 2. -/
def cA : Cast := ⟨[2], [some 1], [some 1], 2, 1⟩

/-- A valid-cast record at longitude 3, latitude 4. -/
def cB : Cast := ⟨[2], [some 1], [some 1], 4, 3⟩

/-- An interpolated cast whose `u_int` column is entirely missing. -/
def icAllNone : InterpolatedCast := ⟨[2, 4], [none, none], [some 1, some 1]⟩

/-- An interpolated cast whose `u_int` is missing at row 0 but present at
row 1. -/
def icW10 : InterpolatedCast := ⟨[2, 4], [none, some 1], [some 1, some 1]⟩

/-- The interpolated mapping produced from the single retained cast
`castW`. -/
def mW : List (Nat × InterpolatedCast) :=
  (process_casts [(2, castW)]).toOption.getD []

/-! Helper lemmas. -/

lemma np_arange_length (s e stp : ℚ) :
    (np_arange s e stp).length = Int.toNat ⌈(e - s) / stp⌉ := by
  rw [np_arange, List.length_map, List.length_range]

lemma np_arange_getD (s e stp : ℚ) (i : ℕ) (h : i < (np_arange s e stp).length) :
    (np_arange s e stp).getD i 0 = s + stp * i := by
  rw [np_arange] at h ⊢
  rw [List.getD_eq_getElem _ _ h, List.getElem_map, List.getElem_range]

lemma grid_length : full_depth_range.length = 1287 := by decide

lemma grid_getLastD : full_depth_range.getLastD 0 = 2574 := by decide

lemma grid_getD (i : ℕ) (h : i < full_depth_range.length) :
    full_depth_range.getD i 0 = 2 + 2 * (i : ℚ) := by
  simpa [full_depth_range] using np_arange_getD 2 2576 2 i (by simpa [full_depth_range] using h)

lemma replicate_none_getD (k i : ℕ) :
    (List.replicate k (none : Option ℚ)).getD i none = none := by
  induction k generalizing i with
  | zero => simp
  | succ k ih =>
    cases i with
    | zero => simp [List.replicate_succ]
    | succ j => simp only [List.replicate_succ, List.getD_cons_succ]; exact ih j

lemma extendFull_getD_of_le (xs : List (Option ℚ)) (i : ℕ) (h : xs.length ≤ i) :
    (extendFull xs).getD i none = none := by
  unfold extendFull
  generalize full_depth_range.length - xs.length = k
  induction xs generalizing i with
  | nil => simp only [List.nil_append]; exact replicate_none_getD k i
  | cons x xs ih =>
    cases i with
    | zero => simp at h
    | succ j => simpa using ih j (Nat.le_of_succ_le_succ h)

lemma extendFull_length (xs : List (Option ℚ)) (h : xs.length ≤ full_depth_range.length) :
    (extendFull xs).length = full_depth_range.length := by
  simp [extendFull, Nat.add_sub_cancel' h]

lemma max_depth_le (c : Cast) (md : ℚ) (h : max_depth c = some md) : md ≤ 2574 := by
  unfold max_depth at h
  rw [Option.map_eq_some'] at h
  obtain ⟨m, _, hmd⟩ := h
  rw [← hmd, grid_getLastD]
  exact min_le_right m 2574

lemma gvcGo_cons_ok (load : Nat → Except PyErr Cast) (cast : Nat) (rest : List Nat)
    (dr : Cast) (hl : load cast = .ok dr) :
    gvcGo load (cast :: rest) =
      if dr.lon ≠ 0 ∧ cast ≠ 1 then
        match gvcGo load rest with
        | .ok m => .ok ((cast, dr) :: m)
        | .error e => .error e
      else gvcGo load rest := by
  rw [gvcGo, hl]

lemma gvcGo_cons_error (load : Nat → Except PyErr Cast) (cast : Nat) (rest : List Nat)
    (e : PyErr) (hl : load cast = .error e) :
    gvcGo load (cast :: rest) =
      if e = .fileNotFound ∨ e = .keyError then gvcGo load rest else .error e := by
  rw [gvcGo, hl]

lemma gvcGo_mem_sound (load : Nat → Except PyErr Cast) :
    ∀ (L : List Nat) (m : List (Nat × Cast)), gvcGo load L = .ok m →
      ∀ i x, (i, x) ∈ m → load i = .ok x ∧ x.lon ≠ 0 ∧ i ≠ 1 := by
  intro L
  induction L with
  | nil =>
    intro m hm i x hx
    rw [gvcGo] at hm
    cases hm
    simp at hx
  | cons cast rest ih =>
    intro m hm i x hx
    rw [gvcGo] at hm
    split at hm
    case h_1 dr hl =>
      split at hm
      case isTrue hcond =>
        split at hm
        case h_1 m2 hr =>
          cases hm
          rcases List.mem_cons.mp hx with hx | hx
          · cases hx
            exact ⟨hl, hcond⟩
          · exact ih m2 hr i x hx
        case h_2 e hr => cases hm
      case isFalse hcond => exact ih m hm i x hx
    case h_2 e hl =>
      split at hm
      case isTrue hsw => exact ih m hm i x hx
      case isFalse hsw => cases hm

lemma gvcGo_mem_complete (load : Nat → Except PyErr Cast) :
    ∀ (L : List Nat) (m : List (Nat × Cast)), gvcGo load L = .ok m →
      ∀ i x, i ∈ L → load i = .ok x → x.lon ≠ 0 → i ≠ 1 → (i, x) ∈ m := by
  intro L
  induction L with
  | nil => intro m hm i x hiL; simp at hiL
  | cons cast rest ih =>
    intro m hm i x hiL hl hlon hi1
    rw [gvcGo] at hm
    rcases List.mem_cons.mp hiL with hic | hic
    · subst hic
      split at hm
      case h_1 dr hlc =>
        rw [hl] at hlc
        cases hlc
        rw [if_pos ⟨hlon, hi1⟩] at hm
        split at hm
        case h_1 m2 hr =>
          cases hm
          exact List.mem_cons_self _ _
        case h_2 e hr => cases hm
      case h_2 e hlc =>
        rw [hl] at hlc
        cases hlc
    · split at hm
      case h_1 dr hlc =>
        split at hm
        case isTrue hcond =>
          split at hm
          case h_1 m2 hr =>
            cases hm
            exact List.mem_cons_of_mem _ (ih m2 hr i x hic hl hlon hi1)
          case h_2 e hr => cases hm
        case isFalse hcond => exact ih m hm i x hic hl hlon hi1
      case h_2 e hlc =>
        split at hm
        case isTrue hsw => exact ih m hm i x hic hl hlon hi1
        case isFalse hsw => cases hm

lemma lastSomeIdx_none (l : List (Option ℚ)) (h : lastSomeIdx l = none) :
    ∀ j, l.getD j none = none := by
  induction l with
  | nil => intro j; simp
  | cons x xs ih =>
    intro j
    rw [lastSomeIdx] at h
    cases hr : lastSomeIdx xs with
    | some k => rw [hr] at h; cases h
    | none =>
      rw [hr] at h
      by_cases hx : x.isSome
      · rw [if_pos hx] at h; cases h
      · rw [if_neg hx] at h
        cases j with
        | zero => simpa using Option.not_isSome_iff_eq_none.mp hx
        | succ j2 => simpa using ih hr j2

lemma lastSomeIdx_spec (l : List (Option ℚ)) (i : Nat) (h : lastSomeIdx l = some i) :
    (l.getD i none).isSome ∧ ∀ j, i < j → l.getD j none = none := by
  induction l generalizing i with
  | nil => rw [lastSomeIdx] at h; cases h
  | cons x xs ih =>
    rw [lastSomeIdx] at h
    cases hr : lastSomeIdx xs with
    | some k =>
      rw [hr] at h
      cases h
      obtain ⟨h1, h2⟩ := ih k hr
      refine ⟨by simpa using h1, ?_⟩
      intro j hj
      cases j with
      | zero => omega
      | succ j2 => simpa using h2 j2 (by omega)
    | none =>
      rw [hr] at h
      by_cases hx : x.isSome
      · rw [if_pos hx] at h
        cases h
        refine ⟨by simpa using hx, ?_⟩
        intro j hj
        cases j with
        | zero => omega
        | succ j2 => simpa using lastSomeIdx_none xs hr j2
      · rw [if_neg hx] at h; cases h

lemma process_casts_mem (vc : List (Nat × Cast)) (m : List (Nat × InterpolatedCast))
    (hm : process_casts vc = .ok m) (cid : Nat) (c : Cast) (hc : (cid, c) ∈ vc) :
    ∃ ic, (cid, ic) ∈ m ∧ processCast c = .ok ic := by
  induction vc generalizing m with
  | nil => simp at hc
  | cons kc rest ih =>
    obtain ⟨k, c0⟩ := kc
    rw [process_casts] at hm
    split at hm
    case h_1 e hp => cases hm
    case h_2 ic0 hp =>
      split at hm
      case h_1 e hr => cases hm
      case h_2 m2 hr =>
        cases hm
        rcases List.mem_cons.mp hc with hc | hc
        · rw [Prod.mk.injEq] at hc
          obtain ⟨hk, hcc⟩ := hc
          subst hk
          subst hcc
          exact ⟨ic0, List.mem_cons_self _ _, hp⟩
        · obtain ⟨ic, hmem, hpc⟩ := ih m2 hr hc
          exact ⟨ic, List.mem_cons_of_mem _ hmem, hpc⟩

lemma processCast_spec (c : Cast) (md : ℚ) (h : max_depth c = some md) :
    processCast c = .ok
        ⟨full_depth_range,
         extendFull ((np_arange 2 (md + 1) 2).map (fun d => np_interp d c.p c.u)),
         extendFull ((np_arange 2 (md + 1) 2).map (fun d => np_interp d c.p c.v))⟩ ∧
      (np_arange 2 (md + 1) 2).length ≤ full_depth_range.length ∧
      (∀ i : ℕ, md + 1 ≤ full_depth_range.getD i 0 →
        (np_arange 2 (md + 1) 2).length ≤ i) := by
  have hmd : md ≤ 2574 := max_depth_le c md h
  have hn : (np_arange 2 (md + 1) 2).length ≤ full_depth_range.length := by
    rw [np_arange_length, grid_length]
    refine Int.toNat_le.mpr (Int.ceil_le.mpr ?_)
    push_cast
    linarith
  refine ⟨?_, hn, ?_⟩
  · unfold processCast
    rw [h]
  · intro i hi
    by_cases hlt : i < full_depth_range.length
    · rw [grid_getD i hlt] at hi
      rw [np_arange_length]
      refine Int.toNat_le.mpr (Int.ceil_le.mpr ?_)
      push_cast
      linarith
    · exact hn.trans (Nat.le_of_not_lt hlt)

lemma innerLoop_all_skipped (valid : List (Nat × Cast)) (cid : Nat) (ic : InterpolatedCast) :
    ∀ (pairs : List (Nat × String)) (st : PlotState),
      (∀ pc ∈ pairs, icLen ic ≤ pc.1 ∨ ic.u_int.getD pc.1 none = none) →
      innerLoop valid cid ic st pairs = .ok st := by
  intro pairs
  induction pairs with
  | nil => intro st _; rw [innerLoop]
  | cons pc rest ih =>
    obtain ⟨ind, color⟩ := pc
    intro st h
    rw [innerLoop, if_pos (h (ind, color) (List.mem_cons_self _ _))]
    exact ih st (fun q hq => h q (List.mem_cons_of_mem _ hq))

/-! Claim theorems. -/

/-- C1 (counterexample): the claim says the shared depth grid has length
1288; the grid `np.arange(2, 2576, 2)` actually has 1287 entries
(`(2576 - 2) / 2`), so the stated length is wrong. -/
theorem C1_counterexample : full_depth_range.length ≠ 1288 := by decide

/-- C1 (amended): the shared depth grid consists of evenly spaced values
from 2 to 2574 inclusive with step 2 — entry `i` is `2 + 2 * i`, the first
entry is 2, the last is 2574 — and its length is 1287 (not 1288). -/
theorem C1_grid :
    full_depth_range.length = 1287 ∧
    (∀ i : ℕ, i < full_depth_range.length → full_depth_range.getD i 0 = 2 + 2 * (i : ℚ)) ∧
    full_depth_range.getD 0 0 = 2 ∧
    full_depth_range.getLastD 0 = 2574 :=
  ⟨grid_length, fun i hi => grid_getD i hi, by decide, grid_getLastD⟩

/-- C1 (witness): the grid formula evaluated at a concrete index. -/
theorem C1_grid_witness :
    full_depth_range.length = 1287 ∧ full_depth_range.getD 5 0 = 12 := by
  have h := C1_grid.2.1 5 (by rw [C1_grid.1]; omega)
  norm_num at h
  exact ⟨C1_grid.1, h⟩

/-- C2 (counterexample): the claim says every interpolated value at a grid
depth exceeding `max_depth` is NaN.  For `cast2x` (pressures `[2, 7.5, 10]`,
`u` all present, `v` missing at depth 10) the jointly-valid maximum is 7.5,
yet the code's truncated range `np.arange(2, 8.5, 2)` still contains grid
depth 8 > 7.5, and the interpolated `u` there is 1, not NaN. -/
theorem C2_counterexample :
    max_depth cast2x = some (15/2) ∧
    full_depth_range.getD 3 0 = 8 ∧ (15/2 : ℚ) < 8 ∧
    (match processCast cast2x with
     | .ok ic => ic.u_int.getD 3 none
     | .error _ => none) = some 1 := by
  refine ⟨by decide, by decide, by norm_num, by decide⟩

/-- C2 (amended): for every retained cast with at least one jointly-valid
`(u, v)` sample (equivalently, `max_depth` is defined), `process_casts`
yields an interpolated cast whose `u` and `v` arrays have the shared grid
length, and every interpolated value at a grid position whose depth is at
least `max_depth + 1` is NaN.  (A grid depth strictly between `max_depth`
and `max_depth + 1` — possible only when `max_depth` is not an even
integer, as in `C2_counterexample` — can carry a non-missing value.) -/
theorem C2_interpolation (vc : List (Nat × Cast)) (m : List (Nat × InterpolatedCast))
    (cid : Nat) (c : Cast) (md : ℚ)
    (hm : process_casts vc = .ok m) (hc : (cid, c) ∈ vc) (hmd : max_depth c = some md) :
    ∃ ic, (cid, ic) ∈ m ∧
      ic.u_int.length = full_depth_range.length ∧
      ic.v_int.length = full_depth_range.length ∧
      (∀ i : ℕ, md + 1 ≤ full_depth_range.getD i 0 → ic.u_int.getD i none = none) ∧
      (∀ i : ℕ, md + 1 ≤ full_depth_range.getD i 0 → ic.v_int.getD i none = none) := by
  obtain ⟨ic, hmem, hpc⟩ := process_casts_mem vc m hm cid c hc
  obtain ⟨heq, hn, hkey⟩ := processCast_spec c md hmd
  rw [hpc] at heq
  cases heq
  refine ⟨_, hmem, ?_, ?_, ?_, ?_⟩
  · exact extendFull_length _ (by rw [List.length_map]; exact hn)
  · exact extendFull_length _ (by rw [List.length_map]; exact hn)
  · intro i hi
    exact extendFull_getD_of_le _ _ (by rw [List.length_map]; exact hkey i hi)
  · intro i hi
    exact extendFull_getD_of_le _ _ (by rw [List.length_map]; exact hkey i hi)

/-- C2 (witness): the amended property instantiated on the single retained
cast `castW`, whose `max_depth` is 4. -/
theorem C2_interpolation_witness :
    ∃ ic, (2, ic) ∈ mW ∧
      ic.u_int.length = full_depth_range.length ∧
      ic.v_int.length = full_depth_range.length ∧
      (∀ i : ℕ, (4 : ℚ) + 1 ≤ full_depth_range.getD i 0 → ic.u_int.getD i none = none) ∧
      (∀ i : ℕ, (4 : ℚ) + 1 ≤ full_depth_range.getD i 0 → ic.v_int.getD i none = none) :=
  C2_interpolation [(2, castW)] mW 2 castW 4 (by rfl) (List.mem_singleton.mpr rfl) (by decide)

/-- C3 (counterexample): on the spec's example cast (`p = [2,4,6,8]`,
`u = [1, NaN, 3, 4]`, `v` all valid) the claim says interpolated `u` at
depth 4 equals 2.0.  The code calls `np.interp` on the raw sample arrays
with the NaN still in them, so the query at depth 4 hits the NaN sample
exactly and yields NaN (grid row 1 is depth 4), not 2.0. -/
theorem C3_counterexample :
    max_depth cast3 = some 8 ∧
    (match processCast cast3 with
     | .ok ic => ic.u_int.getD 1 none
     | .error _ => some 0) = none ∧
    (none : Option ℚ) ≠ some 2 := by
  refine ⟨by decide, by decide, by decide⟩

/-- C3 (amended): max jointly-valid depth is 8 as claimed, but a missing
source sample does block interpolation at and around it: `np.interp` is
applied to the raw `(p, u)` arrays including the NaN at depth 4, so the
interpolated `u` along the grid is `[1, NaN, 3, 4]` — the depth-4 value is
NaN rather than the NaN-skipping interpolation 2.0. -/
theorem C3_interp_example :
    max_depth cast3 = some 8 ∧
    np_interp 4 cast3.p cast3.u = none ∧
    np_interp 5 cast3.p cast3.u = none ∧
    (match processCast cast3 with
     | .ok ic => (ic.u_int.getD 0 none, ic.u_int.getD 1 none,
                  ic.u_int.getD 2 none, ic.u_int.getD 3 none)
     | .error _ => (none, none, none, none)) = (some 1, none, some 3, some 4) := by
  refine ⟨by decide, by decide, by decide, by decide⟩

/-- C4 (confirmed): for every identifier in `1 .. N` whose cast loads
successfully, the cast is in the retained mapping if and only if its
longitude is non-zero and its identifier is not 1. -/
theorem C4_retention (load : Nat → Except PyErr Cast) (N i : Nat) (c : Cast)
    (m : List (Nat × Cast)) (hm : get_valid_casts load N = .ok m)
    (h1 : 1 ≤ i) (h2 : i ≤ N) (hl : load i = .ok c) :
    (i, c) ∈ m ↔ (c.lon ≠ 0 ∧ i ≠ 1) := by
  constructor
  · intro hx
    exact (gvcGo_mem_sound load _ m hm i c hx).2
  · rintro ⟨hlon, hi1⟩
    exact gvcGo_mem_complete load _ m hm i c
      (by rw [List.mem_range'_1]; omega) hl hlon hi1

/-- C4 (witness): with the loader `loadW` over identifiers 1..3, cast 1
(non-zero longitude) and cast 2 (longitude 0) are excluded and cast 3 is
retained; the retention equivalence evaluated at identifier 3. -/
theorem C4_retention_witness :
    get_valid_casts loadW 3 = .ok [(3, castW3)] ∧
    ((3, castW3) ∈ [(3, castW3)] ↔ (castW3.lon ≠ 0 ∧ 3 ≠ 1)) :=
  ⟨by rfl, C4_retention loadW 3 3 castW3 [(3, castW3)] (by rfl) (by decide) (by decide) (by rfl)⟩

/-- C5 (counterexample): the claim says a load failure for any reason is
swallowed and the scan continues.  With a loader whose identifier-2 load
raises an exception class other than `FileNotFoundError` / `KeyError`
(e.g. a scipy parse error), `get_valid_casts` propagates the exception to
the caller instead of continuing. -/
theorem C5_counterexample : get_valid_casts loadCex 3 = .error .otherExc := by rfl

/-- C5 (amended): only load failures of the two classes named in the
`except` clause — `FileNotFoundError` and `KeyError` — are swallowed: if
every identifier in `1 .. N` either loads successfully or fails with one
of those two classes, the scan completes without raising. -/
theorem C5_swallow (load : Nat → Except PyErr Cast) (N : Nat)
    (h : ∀ i ∈ List.range' 1 N, loadOkOrSwallowed (load i) = true) :
    ∃ m, get_valid_casts load N = .ok m := by
  unfold get_valid_casts
  revert h
  generalize List.range' 1 N = L
  intro h
  induction L with
  | nil => exact ⟨[], rfl⟩
  | cons cast rest ih =>
    have hc := h cast (List.mem_cons_self _ _)
    obtain ⟨m, hm⟩ := ih (fun i hi => h i (List.mem_cons_of_mem _ hi))
    cases hl : load cast with
    | ok dr =>
      rw [gvcGo_cons_ok load cast rest dr hl]
      by_cases hcond : dr.lon ≠ 0 ∧ cast ≠ 1
      · rw [if_pos hcond, hm]
        exact ⟨_, rfl⟩
      · rw [if_neg hcond]
        exact ⟨m, hm⟩
    | error e =>
      rw [hl] at hc
      rw [gvcGo_cons_error load cast rest e hl]
      cases e with
      | fileNotFound => rw [if_pos (Or.inl rfl)]; exact ⟨m, hm⟩
      | keyError => rw [if_pos (Or.inr rfl)]; exact ⟨m, hm⟩
      | indexError => cases hc
      | unboundLocalError => cases hc
      | valueErrorArangeNaN => cases hc
      | valueErrorEmptySeq => cases hc
      | otherExc => cases hc

/-- C5 (witness): a scan in which identifier 2 fails with
`FileNotFoundError` completes without raising. -/
theorem C5_swallow_witness : ∃ m, get_valid_casts loadW5 3 = .ok m :=
  C5_swallow loadW5 3 (by decide)

/-- C6 (code bug): for a retained cast with no jointly-valid `(u, v)`
sample, pandas' `max` over the empty selection yields NaN, `np.min`
propagates it, so `max_depth` is the nonsensical NaN, and
`np.arange(2, max_depth + 1, 2)` then raises an obscure `ValueError`
(`cannot convert float NaN to integer`).  The cast is neither dropped nor
reported via a descriptive condition, contradicting the claim. -/
theorem C6_no_joint_valid :
    max_depth noJointCast = none ∧
    process_casts [(2, noJointCast)] = .error .valueErrorArangeNaN :=
  ⟨rfl, rfl⟩

/-- C7 (code bug): rendering an empty retained-cast mapping reaches
`min(lons)` with an empty list, raising the generic `ValueError` of
`min()` on an empty sequence from the bounding-box computation — not a
descriptive "no data" condition, contradicting the claim. -/
theorem C7_empty_render :
    plot_adcp_data [] [] [10, 500, 1000] ["red", "blue", "green"] =
      .error .valueErrorEmptySeq :=
  rfl

/-- C8 (counterexample): the claim says a vector is drawn iff the index is
in bounds and BOTH `u` and `v` there are non-missing.  For `icx` the
`v_int` value at index 0 is NaN while `u_int` is present, yet the renderer
draws the vector (with a NaN `v` component): only `u` is checked. -/
theorem C8_counterexample :
    icx.v_int.getD 0 none = none ∧
    plot_adcp_data [(2, icx)] [(2, cx)] [0] ["red"] =
      .ok ([⟨3, 4, some 1, none, "red"⟩, ⟨3, 4, some 1, some 2, "black"⟩],
        14/5, 16/5, 19/5, 21/5) :=
  ⟨rfl, rfl⟩

/-- C8 (amended): for each retained cast and `(index, color)` pair, a
vector is drawn at the cast's own `(lon, lat)` iff the index is within the
array bounds and the `u` value there is non-missing; the `v` value is not
consulted (a drawn vector may carry a missing `v`), and otherwise the pair
is skipped silently, leaving the state unchanged. -/
theorem C8_highlight_rule (valid : List (Nat × Cast)) (cid : Nat) (ic : InterpolatedCast)
    (st : PlotState) (ind : Nat) (color : String) (rest : List (Nat × String)) (c : Cast)
    (hc : alistGet valid cid = .ok c) :
    innerLoop valid cid ic st ((ind, color) :: rest) =
      if ind < icLen ic ∧ (ic.u_int.getD ind none).isSome then
        innerLoop valid cid ic
          { vecs := st.vecs ++ [⟨c.lon, c.lat, ic.u_int.getD ind none, ic.v_int.getD ind none, color⟩]
            lons := st.lons ++ [c.lon]
            lats := st.lats ++ [c.lat]
            lonVar := some c.lon
            latVar := some c.lat } rest
      else innerLoop valid cid ic st rest := by
  by_cases hcond : icLen ic ≤ ind ∨ ic.u_int.getD ind none = none
  · have hneg : ¬(ind < icLen ic ∧ (ic.u_int.getD ind none).isSome) := by
      rcases hcond with h1 | h1
      · exact fun hh => absurd hh.1 (Nat.not_lt.mpr h1)
      · exact fun hh => by rw [h1] at hh; exact absurd hh.2 (by simp)
    rw [innerLoop, if_pos hcond, if_neg hneg]
  · have hpos : ind < icLen ic ∧ (ic.u_int.getD ind none).isSome := by
      push_neg at hcond
      exact ⟨hcond.1, Option.isSome_iff_ne_none.mpr hcond.2⟩
    rw [innerLoop, if_neg hcond, hc, if_pos hpos]

/-- C8 (witness): the drawing rule evaluated on the concrete cast `icx`
and pair `(0, red)` from an empty state. -/
theorem C8_highlight_rule_witness :
    innerLoop [(2, cx)] 2 icx ⟨[], [], [], none, none⟩ [(0, ("red" : String))] =
      if 0 < icLen icx ∧ (icx.u_int.getD 0 none).isSome then
        innerLoop [(2, cx)] 2 icx
          { vecs := [] ++ [⟨cx.lon, cx.lat, icx.u_int.getD 0 none, icx.v_int.getD 0 none, "red"⟩]
            lons := [] ++ [cx.lon]
            lats := [] ++ [cx.lat]
            lonVar := some cx.lon
            latVar := some cx.lat } []
      else innerLoop [(2, cx)] 2 icx ⟨[], [], [], none, none⟩ [] :=
  C8_highlight_rule [(2, cx)] 2 icx ⟨[], [], [], none, none⟩ 0 ("red") [] cx (by rfl)

/-- C9 (counterexample): the claim says the bottom-most vector always uses
the position variables from the last processed cast rather than the
current cast's own position.  With two casts at distinct positions
(cast 2 at `(1, 2)`, cast 3 at `(3, 4)`), each bottom-most vector is in
fact drawn at the current cast's own position — the fourth emitted vector
(cast 3's bottom) is at `(3, 4)`, not at the previous cast's `(1, 2)` —
because the inner highlight loop assigns the position variables from the
current cast whenever it draws. -/
theorem C9_counterexample :
    plot_adcp_data [(2, icA), (3, icA)] [(2, cA), (3, cB)] [0] ["red"] =
      .ok ([⟨1, 2, some 1, some 1, "red"⟩, ⟨1, 2, some 1, some 1, "black"⟩,
            ⟨3, 4, some 1, some 1, "red"⟩, ⟨3, 4, some 1, some 1, "black"⟩],
        4/5, 16/5, 9/5, 21/5) :=
  rfl

/-- C9 (amended): the bottom-most vector is drawn at the deepest grid row
whose `u` value is present (every deeper row has missing `u`), but its
position is whatever the `lon` / `lat` locals currently hold: the current
cast's own position when at least one highlight pair drew for this cast,
and the leftover position of an earlier cast only when all of this cast's
pairs were skipped. -/
theorem C9_bottom_rule (st : PlotState) (ic : InterpolatedCast) (i : Nat) (lo la : ℚ)
    (hi : lastValidIndex ic = some i) (hlo : st.lonVar = some lo) (hla : st.latVar = some la) :
    bottomStep st ic =
      .ok { vecs := st.vecs ++ [⟨lo, la, ic.u_int.getD i none, ic.v_int.getD i none, "black"⟩]
            lons := st.lons ++ [lo]
            lats := st.lats ++ [la]
            lonVar := some lo
            latVar := some la } ∧
    (ic.u_int.getD i none).isSome ∧
    (∀ j, i < j → ic.u_int.getD j none = none) := by
  obtain ⟨h1, h2⟩ := lastSomeIdx_spec ic.u_int i hi
  refine ⟨?_, h1, h2⟩
  unfold bottomStep
  rw [hi, hlo, hla]

/-- C9 (witness): the bottom-most rule evaluated on the concrete cast
`icA` (deepest present `u` at row 1) from a state whose position locals
hold `(3, 4)`. -/
theorem C9_bottom_rule_witness :
    bottomStep ⟨[], [], [], some 3, some 4⟩ icA =
      .ok { vecs := [] ++ [⟨3, 4, icA.u_int.getD 1 none, icA.v_int.getD 1 none, "black"⟩]
            lons := [] ++ [(3 : ℚ)]
            lats := [] ++ [(4 : ℚ)]
            lonVar := some 3
            latVar := some 4 } ∧
    (icA.u_int.getD 1 none).isSome ∧
    (∀ j, 1 < j → icA.u_int.getD j none = none) :=
  C9_bottom_rule ⟨[], [], [], some 3, some 4⟩ icA 1 3 4 (by rfl) (by rfl) (by rfl)

/-- C10 (counterexample): the claim says that whenever every highlight
pair of the first cast is skipped, the renderer fails with an
unbound-variable error.  If the skipping is because `u_int` is missing
everywhere, the bottom-most lookup `.index[-1]` on the empty selection
fails first, with an `IndexError` — not the unbound-variable error. -/
theorem C10_counterexample :
    plot_adcp_data [(2, icAllNone)] [(2, cx)] [0] ["red"] = .error .indexError ∧
    PyErr.indexError ≠ PyErr.unboundLocalError :=
  ⟨rfl, by decide⟩

/-- C10 (amended): if every highlight pair of the first cast is skipped
(index out of bounds or `u` missing there) and the cast has at least one
present `u` value, the bottom-most step reads the never-assigned `lon`
local and the renderer fails with an `UnboundLocalError`; when `u` is
entirely missing it instead fails with an `IndexError` (see the
counterexample). -/
theorem C10_unbound (valid : List (Nat × Cast)) (cid : Nat) (ic : InterpolatedCast)
    (rest : List (Nat × InterpolatedCast)) (indices : List Nat) (colors : List String) (i : Nat)
    (hskip : ∀ pc ∈ indices.zip colors, icLen ic ≤ pc.1 ∨ ic.u_int.getD pc.1 none = none)
    (hlast : lastValidIndex ic = some i) :
    plot_adcp_data ((cid, ic) :: rest) valid indices colors = .error .unboundLocalError := by
  have hb : bottomStep ⟨[], [], [], none, none⟩ ic = .error .unboundLocalError := by
    unfold bottomStep
    rw [hlast]
  have hcons : castLoop valid (indices.zip colors) ⟨[], [], [], none, none⟩ ((cid, ic) :: rest) =
      match bottomStep ⟨[], [], [], none, none⟩ ic with
      | .error e => .error e
      | .ok st2 => castLoop valid (indices.zip colors) st2 rest := by
    rw [castLoop, innerLoop_all_skipped valid cid ic (indices.zip colors) _ hskip]
  unfold plot_adcp_data
  rw [hcons, hb]

/-- C10 (witness): a first cast whose only highlight pair is skipped
(`u` missing at index 0) but whose `u` is present at row 1 makes the
renderer fail with the unbound-variable error. -/
theorem C10_unbound_witness :
    plot_adcp_data [(2, icW10)] [(2, cx)] [0] ["red"] = .error .unboundLocalError :=
  C10_unbound [(2, cx)] 2 icW10 [] [0] ["red"] 1 (by decide) (by rfl)
